import Mathlib

/-!
Shallow embedding of the `ai-chat-util` chat orchestrator
(`src/ai_chat_util/llm/llm_client.py`) and batch engine
(`src/ai_chat_util/batch/batch_client.py`).

The value types live in `ai_chat_util.llm.model`, a module whose source is
not part of the repository snapshot; those types are modelled from the
specification (section 3, "Data model") and from how the rest of the code
uses them.  All behaviour (preprocessing, fan-out, merge, batch rows) is
translated directly from the Python source.  The backend `_chat_completion_`
call is abstracted as a pure oracle `complete : List ChatMessage → ChatResponse`
and every function additionally returns the list of backend calls it made
(each entry is the message list sent on that call), so that call counts and
outgoing payloads are observable.  In-place mutation of caller-owned message
objects (Python list aliasing) is made observable through an explicit
`callerAfter` component describing the state of the caller's input message
objects after the call.
-/

namespace AiChatUtil

/-- Modelled from the spec: `ContentBlock` is a tagged union of
text / image / file; text carries a string, image and file carry an opaque
payload (raw bytes are irrelevant to the orchestrator logic and are
represented by an identifier). -/
inductive ChatContent where
  | text (s : String)
  | image (payload : Nat)
  | file (payload : Nat)
deriving DecidableEq

/-- Mirrors the provider predicate `_is_text_content_` (each provider checks
the tag of the block). -/
def ChatContent.isTextContent : ChatContent → Bool
  | .text _ => true
  | _ => false

/-- Mirrors the provider predicate `_is_image_content_`. -/
def ChatContent.isImageContent : ChatContent → Bool
  | .image _ => true
  | _ => false

/-- Mirrors `content.params.get("text", "")`. -/
def ChatContent.getText : ChatContent → String
  | .text s => s
  | _ => ""

/-- Modelled from the spec: `Message` is a role plus an ordered sequence of
content blocks. -/
structure ChatMessage where
  role : String
  content : List ChatContent
deriving DecidableEq

/-- Modelled from the spec: `History` is an ordered sequence of messages plus
a model identifier. -/
structure ChatHistory where
  model : String := ""
  messages : List ChatMessage := []
deriving DecidableEq

/-- Modelled from the spec: `Response` carries the output text and the token
counts (defaulting to zero, as in `ChatResponse(output=...)` constructions in
the source). -/
structure ChatResponse where
  output : String
  input_tokens : Nat := 0
  output_tokens : Nat := 0
deriving DecidableEq

/-- Modelled from the spec: the three split modes of the request context. -/
inductive SplitMode where
  | modeNone
  | modeSplit
  | modeSplitAndSummarize
deriving DecidableEq

/-- Modelled from the spec: `RequestContext` policy record.  The integer
fields are `int` in Python and may be non-positive, hence `Int`. -/
structure ChatRequestContext where
  split_mode : SplitMode := .modeNone
  split_message_length : Int := 0
  max_images_per_request : Int := 0
  prompt_template_text : String := ""
  summarize_prompt_text : String := ""
deriving DecidableEq

/-- The errors raised by the orchestrator (`ValueError`s in the source),
distinguished by raise site. -/
inductive ChatError where
  | noMessages
  | missingPromptTemplate
  | missingSummarizePrompt
deriving DecidableEq

/-- `get_user_role_name` of the OpenAI-style providers. -/
def user_role_name : String := "user"

/-- `get_assistant_role_name` of the OpenAI-style providers. -/
def assistant_role_name : String := "assistant"

/-- `create_text_content`. -/
def create_text_content (s : String) : ChatContent := .text s

/-- Fuel-driven chunking helper: `chunkAux n fuel l` splits `l` into
consecutive windows of `n` elements (final window may be shorter), mirroring
`for i in range(0, len(l), n): l[i:i+n]`.  The fuel makes the recursion
structural; `fuel = l.length` is always sufficient when `0 < n`. -/
def chunkAux (n : Nat) : Nat → List α → List (List α)
  | _, [] => []
  | 0, _ :: _ => []
  | fuel + 1, x :: xs => ((x :: xs).take n) :: chunkAux n fuel ((x :: xs).drop n)

/-- `chunkList n l`: the list of consecutive `n`-element windows of `l`
(Python slicing loop `for i in range(0, len(l), n)`). -/
def chunkList (n : Nat) (l : List α) : List (List α) :=
  if n = 0 then [] else chunkAux n l.length l

/-- Python `str.strip()` restricted to the ASCII whitespace characters. -/
def isPyWhitespace (c : Char) : Bool :=
  c = ' ' || c = '\t' || c = '\n' || c = '\r' || c = '\x0b' || c = '\x0c'

/-- Python `str.strip()`: drop whitespace from both ends. -/
def pyStrip (s : String) : String :=
  String.mk (((s.data.dropWhile isPyWhitespace).reverse.dropWhile isPyWhitespace).reverse)

/-- `__insert_prompt_template__` on a single message: when
`request_context.prompt_template_text` is truthy (non-empty), a text block
with the template is inserted at position 0 of the message's content.  In the
source this mutates the message object in place; here the updated value is
returned. -/
def insertPromptTemplateMsg (rc : ChatRequestContext) (m : ChatMessage) : ChatMessage :=
  if rc.prompt_template_text = "" then m
  else { m with content := create_text_content rc.prompt_template_text :: m.content }

/-- `__insert_prompt_template__`: the loop over the message list. -/
def insertPromptTemplateList (rc : ChatRequestContext) (l : List ChatMessage) : List ChatMessage :=
  l.map (insertPromptTemplateMsg rc)

/-- The text contents collected across the input messages
(`[content for m in list for content in m.content if is_text(content)]`). -/
def textContentsOf (msgs : List ChatMessage) : List ChatContent :=
  (msgs.map (fun m => m.content.filter (fun c => c.isTextContent))).flatten

/-- The non-text contents collected across the input messages. -/
def nonTextContentsOf (msgs : List ChatMessage) : List ChatContent :=
  (msgs.map (fun m => m.content.filter (fun c => c.isTextContent = false))).flatten

/-- The newline-joined concatenation of the extracted text of the text
contents. -/
def combinedTextOf (msgs : List ChatMessage) : String :=
  String.intercalate "\n" ((textContentsOf msgs).map (fun c => c.getText))

/-- `__preprocess_text_message__`.  Returns the preprocessed message list
together with the post-call state of the *input* message objects (the source
mutates them in place through `__insert_prompt_template__`; in the
re-chunking branch fresh `ChatMessage` objects are built and the inputs are
left untouched). -/
def preprocessTextMessage (rc : ChatRequestContext) (msgs : List ChatMessage) :
    Except ChatError (List ChatMessage × List ChatMessage) :=
  if rc.split_mode = .modeNone then
    .ok (insertPromptTemplateList rc msgs, insertPromptTemplateList rc msgs)
  else if rc.prompt_template_text = "" then
    .error .missingPromptTemplate
  else if rc.split_message_length ≤ 0 then
    .ok (insertPromptTemplateList rc msgs, insertPromptTemplateList rc msgs)
  else if textContentsOf msgs = [] then
    .ok (insertPromptTemplateList rc msgs, insertPromptTemplateList rc msgs)
  else
    let nonText := nonTextContentsOf msgs
    let combined := combinedTextOf msgs
    let len := rc.split_message_length.toNat
    let windows := (chunkList len combined.data).map (fun cs => String.mk cs)
    let result := windows.map (fun w =>
      { role := user_role_name,
        content := create_text_content (rc.prompt_template_text ++ "\n" ++ w) :: nonText })
    .ok (result, msgs)

/-- The per-message body of the loop in `__preprocess_image_urls__`. -/
def preprocessImageMessage (maxImages : Nat) (m : ChatMessage) : List ChatMessage :=
  let imgs := m.content.filter (fun c => c.isImageContent)
  if imgs = [] then [m]
  else
    let txts := m.content.filter (fun c => c.isTextContent)
    (chunkList maxImages imgs).map (fun g => { role := m.role, content := txts ++ g })

/-- `__preprocess_image_urls__`. -/
def preprocessImageUrls (rc : ChatRequestContext) (msgs : List ChatMessage) : List ChatMessage :=
  if rc.split_mode = .modeNone then msgs
  else if rc.max_images_per_request ≤ 0 then msgs
  else (msgs.map (preprocessImageMessage rc.max_images_per_request.toNat)).flatten

/-- Modelled from the spec: `ChatHistory.get_last_role_messages` (the source
of `ai_chat_util.llm.model` is not in the repository snapshot).  Per section
4.3 the orchestrator "falls back to the most recent message with the user
role already present in History"; the result is that message as a singleton
list, or the empty list when no such message exists. -/
def getLastRoleMessages (role : String) (msgs : List ChatMessage) : List ChatMessage :=
  match msgs.reverse.find? (fun m => m.role = role) with
  | some m => [m]
  | none => []

/-- Replace the first element satisfying `p` by `m` (helper for modelling the
in-place mutation of the history element aliased by
`get_last_role_messages`). -/
def replaceFirst (p : ChatMessage → Bool) (m : ChatMessage) : List ChatMessage → List ChatMessage
  | [] => []
  | x :: xs => if p x then m :: xs else x :: replaceFirst p m xs

/-- Replace the most recent message carrying `role` by `m`: this is the
history-visible effect of mutating, in place, the message object returned by
`get_last_role_messages`. -/
def updateLastRoleMessage (role : String) (history : List ChatMessage) (m : ChatMessage) :
    List ChatMessage :=
  (replaceFirst (fun x => x.role = role) m history.reverse).reverse

/-- `labelConcat` models the accumulation loop of `__postprocess_messages__`:
`result_text += f"[answer_part_{i+1}]\n" + output + "\n"`. -/
def labelConcat (responses : List ChatResponse) : String :=
  (responses.enum.map
      (fun p => "[answer_part_" ++ toString (p.1 + 1) ++ "]\n" ++ p.2.output ++ "\n")).foldl
    (fun a b => a ++ b) ""

/-- The outcome of one `chat` invocation: the result (or the raised error),
the log of backend `_chat_completion_` calls (each entry is the message list
of the history sent on that call), the final state of the caller's
`chat_history.messages`, and the final state of the caller's input message
objects (observable because `__insert_prompt_template__` mutates them in
place). -/
instance {e a : Type} [DecidableEq e] [DecidableEq a] : DecidableEq (Except e a) := fun x y =>
  match x, y with
  | .ok u, .ok v =>
    if h : u = v then isTrue (by rw [h]) else isFalse (fun he => by cases he; exact h rfl)
  | .error u, .error v =>
    if h : u = v then isTrue (by rw [h]) else isFalse (fun he => by cases he; exact h rfl)
  | .ok _, .error _ => isFalse (fun he => by cases he)
  | .error _, .ok _ => isFalse (fun he => by cases he)

structure ChatCall where
  result : Except ChatError ChatResponse
  calls : List (List ChatMessage)
  historyAfter : List ChatMessage
  callerAfter : List ChatMessage
deriving DecidableEq

/-- `__normal_chat__`: resolve the messages (falling back to the most recent
user message of the history), append them to the history, issue exactly one
`complete` call, append the answer as an assistant message. -/
def normalChat (complete : List ChatMessage → ChatResponse)
    (history : List ChatMessage) (msgs : List ChatMessage) : ChatCall :=
  let resolved := if msgs.isEmpty then getLastRoleMessages user_role_name history else msgs
  if resolved.isEmpty then
    { result := .error .noMessages, calls := [], historyAfter := history, callerAfter := msgs }
  else
    let h2 := history ++ resolved
    let resp := complete h2
    let h3 := h2 ++ [{ role := assistant_role_name, content := [create_text_content resp.output] }]
    { result := .ok resp, calls := [h2], historyAfter := h3, callerAfter := msgs }

/-- `__postprocess_messages__`: merge the fan-out responses.  Returns the
merged response (or the raised error) together with the backend calls made by
the summarization pass (the summary is issued through `client.chat([message])`
on a freshly created client with an empty history and no request context,
i.e. through `__normal_chat__`). -/
def postprocessMessages (complete : List ChatMessage → ChatResponse)
    (responses : List ChatResponse) (rc : ChatRequestContext) :
    Except ChatError ChatResponse × List (List ChatMessage) :=
  if rc.split_mode ≠ .modeSplitAndSummarize then
    match responses with
    | [r] => (.ok r, [])
    | _ => (.ok { output := pyStrip (labelConcat responses) }, [])
  else if rc.summarize_prompt_text = "" then
    (.error .missingSummarizePrompt, [])
  else
    let reqText := responses.foldl (fun acc r => acc ++ r.output ++ "\n")
      (rc.summarize_prompt_text ++ "\n")
    let msg : ChatMessage := { role := user_role_name, content := [create_text_content reqText] }
    let call := normalChat complete [] [msg]
    match call.result with
    | .ok resp => (.ok resp, call.calls)
    | .error e => (.error e, call.calls)

/-- `__chat_with_request_context__`: resolve the messages, run the two
preprocessing passes, fan the preprocessed messages out (one branch per
message, each on a deep-copied history, results re-ordered by branch index),
then — the leftover sequential loop of the source (lines 473-480) — dispatch
every preprocessed message a second time and append those responses as well,
merge through `__postprocess_messages__`, and finally append the preprocessed
messages and the assistant answer to the history. -/
def chatWithRequestContext (complete : List ChatMessage → ChatResponse)
    (history : List ChatMessage) (msgs : List ChatMessage)
    (rc : ChatRequestContext) : ChatCall :=
  let resolved := if msgs.isEmpty then getLastRoleMessages user_role_name history else msgs
  if resolved.isEmpty then
    { result := .error .noMessages, calls := [], historyAfter := history, callerAfter := msgs }
  else
    match preprocessTextMessage rc resolved with
    | .error e =>
      { result := .error e, calls := [], historyAfter := history, callerAfter := msgs }
    | .ok (afterText, resolvedAfter) =>
      let historyBase :=
        if msgs.isEmpty then
          match resolvedAfter with
          | [m] => updateLastRoleMessage user_role_name history m
          | _ => history
        else history
      let callerAfterVal := if msgs.isEmpty then msgs else resolvedAfter
      let pre := preprocessImageUrls rc afterText
      let branchResponses := pre.map (fun m => complete (historyBase ++ [m]))
      let dupResponses := pre.map (fun m => complete (historyBase ++ [m]))
      let chatResponses := branchResponses ++ dupResponses
      let branchLog := pre.map (fun m => historyBase ++ [m]) ++ pre.map (fun m => historyBase ++ [m])
      match postprocessMessages complete chatResponses rc with
      | (.error e, log2) =>
        { result := .error e, calls := branchLog ++ log2,
          historyAfter := historyBase, callerAfter := callerAfterVal }
      | (.ok resp, log2) =>
        let h3 := historyBase ++ pre ++
          [{ role := assistant_role_name, content := [create_text_content resp.output] }]
        { result := .ok resp, calls := branchLog ++ log2,
          historyAfter := h3, callerAfter := callerAfterVal }

/-- `chat`: dispatch on presence of a request context. -/
def chat (complete : List ChatMessage → ChatResponse)
    (history : List ChatMessage) (msgs : List ChatMessage)
    (rc : Option ChatRequestContext) : ChatCall :=
  match rc with
  | some c => chatWithRequestContext complete history msgs c
  | none => normalChat complete history msgs

/-- The empty response synthesized by `_process_row_` for an empty history
(`ChatResponse(output="", input_tokens=0, output_tokens=0, ...)`). -/
def emptyResponse : ChatResponse := { output := "", input_tokens := 0, output_tokens := 0 }

/-- `LLMBatchClient._process_row_`: empty histories short-circuit to an empty
response with no backend call; otherwise one no-context `chat()` turn runs on
the row's history.  The returned value is the `(row_num, response, history)`
triple together with the number of backend calls made for the row and the
number of `progress.update(1)` invocations. -/
def processRow (complete : List ChatMessage → ChatResponse)
    (rowNum : Nat) (h : ChatHistory) :
    Except ChatError ((Nat × ChatResponse × ChatHistory) × Nat × Nat) :=
  if h.messages.isEmpty then
    .ok ((rowNum, emptyResponse, h), 0, 1)
  else
    match (chat complete h.messages [] none).result with
    | .error e => .error e
    | .ok resp =>
      .ok ((rowNum, resp, { h with messages := (chat complete h.messages [] none).historyAfter }),
        (chat complete h.messages [] none).calls.length, 1)

/-- The key ordering used by `responses.sort(key=lambda x: x[0])`. -/
def rowLe (a b : Nat × ChatResponse × ChatHistory) : Prop := a.1 ≤ b.1

instance : DecidableRel rowLe := fun a b => Nat.decLe a.1 b.1

/-- `run_batch_chat`'s final ordering step: the gathered task results (in
whatever order completion/nondeterminism delivered them, modelled by letting
the argument be any permutation of the tagged results) are sorted by row
number before being returned. -/
def runBatchChatSort (gathered : List (Nat × ChatResponse × ChatHistory)) :
    List (Nat × ChatResponse × ChatHistory) :=
  gathered.insertionSort rowLe

/-- `collectRows` mirrors `asyncio.gather` over the per-row tasks of
`run_batch_chat` when every row succeeds; the first row failure aborts the
whole batch (the gather re-raises the exception). -/
def collectRows (complete : List ChatMessage → ChatResponse) :
    List (Nat × ChatHistory) → Except ChatError (List (Nat × ChatResponse × ChatHistory))
  | [] => .ok []
  | p :: ps =>
    match processRow complete p.1 p.2 with
    | .error e => .error e
    | .ok r =>
      match collectRows complete ps with
      | .error e => .error e
      | .ok rs => .ok (r.1 :: rs)

/-- The tagged row results of `run_batch_chat` in task-submission order
(`enumerate(chat_histories)`). -/
def batchRowsExc (complete : List ChatMessage → ChatResponse)
    (histories : List ChatHistory) :
    Except ChatError (List (Nat × ChatResponse × ChatHistory)) :=
  collectRows complete histories.enum

/-- Concatenation of a list of strings (used to state the round-trip
property of the text-splitting windows). -/
def concatAll (l : List String) : String := String.mk ((l.map String.data).flatten)

/-- Remove the inserted template text (the template followed by the newline
separator) from the front of a window message's text. -/
def stripTemplateText (tmpl : String) (s : String) : String :=
  String.mk (s.data.drop (tmpl.data.length + 1))

/-- The text of a message's leading content block. -/
def headTextOf (m : ChatMessage) : String :=
  match m.content with
  | c :: _ => c.getText
  | [] => ""

instance : IsTotal (Nat × ChatResponse × ChatHistory) rowLe :=
  ⟨fun a b => Nat.le_total a.1 b.1⟩

instance : IsTrans (Nat × ChatResponse × ChatHistory) rowLe :=
  ⟨fun _ _ _ h1 h2 => Nat.le_trans h1 h2⟩

/-- Strict key order on tagged row results. -/
def rowLt (a b : Nat × ChatResponse × ChatHistory) : Prop := a.1 < b.1

instance : IsAntisymm (Nat × ChatResponse × ChatHistory) rowLt :=
  ⟨fun _ _ h1 h2 => absurd h2 (Nat.lt_asymm h1)⟩

/-! ### Concrete fixtures used by the witnesses and counterexamples -/

/-- A backend test double returning the same output on every call. -/
def constBackend (s : String) : List ChatMessage → ChatResponse := fun _ => { output := s }

/-- A request context with `split_mode = none` and no template. -/
def ctxNone : ChatRequestContext := { split_mode := .modeNone }

/-- A request context with `split_mode = split`, window length 1 and template
`"T"`. -/
def ctxSplit1 : ChatRequestContext :=
  { split_mode := .modeSplit, split_message_length := 1, prompt_template_text := "T" }

/-- A request context with `split_mode = split` and no re-chunking
configured. -/
def ctxSplitLabel : ChatRequestContext :=
  { split_mode := .modeSplit, prompt_template_text := "T" }

/-- A request context with `split_mode = split_and_summarize`, window length 2,
template `"T"` and summarize prompt `"S"`. -/
def ctxSummarize3 : ChatRequestContext :=
  { split_mode := .modeSplitAndSummarize, split_message_length := 2,
    prompt_template_text := "T", summarize_prompt_text := "S" }

/-- A request context with `split_mode = split_and_summarize` and no
re-chunking configured. -/
def ctxSummarizeOnly : ChatRequestContext :=
  { split_mode := .modeSplitAndSummarize, summarize_prompt_text := "S" }

/-- One user message with text `"hello"`. -/
def helloMsg : ChatMessage := { role := "user", content := [ChatContent.text "hello"] }

/-- One user message with text `"ab"`. -/
def abMsg : ChatMessage := { role := "user", content := [ChatContent.text "ab"] }

/-- One user message with text `"abcde"`. -/
def abcdeMsg : ChatMessage := { role := "user", content := [ChatContent.text "abcde"] }

/-- One user message carrying a single image block and no text block. -/
def imageOnlyMsg : ChatMessage := { role := "user", content := [ChatContent.image 0] }

/-- One user message carrying text and three image blocks. -/
def threeImageMsg : ChatMessage :=
  { role := "user",
    content := [ChatContent.text "t", ChatContent.image 1, ChatContent.image 2,
      ChatContent.image 3] }

/-- A request context with `split_mode = split` and at most 2 images per
request. -/
def ctxImages2 : ChatRequestContext :=
  { split_mode := .modeSplit, max_images_per_request := 2, prompt_template_text := "T" }

/-- A request context with `split_mode = none` and template `"T"`. -/
def ctxNoneT : ChatRequestContext :=
  { split_mode := .modeNone, prompt_template_text := "T" }

/-- A request context with `split_mode = split`, window length 2 and template
`"T"`. -/
def ctxSplitLen2 : ChatRequestContext :=
  { split_mode := .modeSplit, split_message_length := 2, prompt_template_text := "T" }

/-- A one-message history used by the batch fixtures. -/
def mkHist (s : String) : ChatHistory :=
  { model := "m", messages := [{ role := "user", content := [ChatContent.text s] }] }

/-- One tagged row result of the concrete batch run used by the C2 witness:
the no-context turn re-resolves the last user message, appends it again, and
appends the assistant answer. -/
def c2row (s : String) (i : Nat) : Nat × ChatResponse × ChatHistory :=
  (i, { output := "ok" },
    { model := "m",
      messages := [ChatMessage.mk "user" [ChatContent.text s],
        ChatMessage.mk "user" [ChatContent.text s],
        ChatMessage.mk "assistant" [ChatContent.text "ok"]] })

/-- The canonical tagged results of the concrete 3-row batch run. -/
def c2canonical : List (Nat × ChatResponse × ChatHistory) :=
  [c2row "a" 0, c2row "b" 1, c2row "c" 2]

/-! ### Helper lemmas -/

theorem string_mk_data (s : String) : String.mk s.data = s := rfl

theorem chunkAux_flatten {α : Type} {n : Nat} (hn : 0 < n) :
    ∀ (fuel : Nat) (l : List α), l.length ≤ fuel → (chunkAux n fuel l).flatten = l := by
  intro fuel
  induction fuel with
  | zero =>
    intro l hl
    cases l with
    | nil => simp [chunkAux]
    | cons x xs => simp at hl
  | succ fuel ih =>
    intro l hl
    cases l with
    | nil => simp [chunkAux]
    | cons x xs =>
      have hl2 : xs.length + 1 ≤ fuel + 1 := by simpa using hl
      simp only [chunkAux, List.flatten_cons]
      rw [ih ((x :: xs).drop n) (by simp [List.length_drop]; omega)]
      exact List.take_append_drop n (x :: xs)

theorem ceil_div_step {n len : Nat} (hn : 0 < n) (hl : 1 ≤ len) :
    (len + n - 1) / n = (len - n + n - 1) / n + 1 := by
  rcases le_or_lt len n with h | h
  · have h0 : len - n = 0 := by omega
    have h1 : len + n - 1 = (len - 1) + n := by omega
    rw [h0, h1, Nat.add_div_right _ hn, Nat.div_eq_of_lt (by omega),
      Nat.div_eq_of_lt (by omega)]
  · have h1 : len + n - 1 = (len - n + n - 1) + n := by omega
    rw [h1, Nat.add_div_right _ hn]

theorem chunkAux_length {α : Type} {n : Nat} (hn : 0 < n) :
    ∀ (fuel : Nat) (l : List α), l.length ≤ fuel →
      (chunkAux n fuel l).length = (l.length + n - 1) / n := by
  intro fuel
  induction fuel with
  | zero =>
    intro l hl
    cases l with
    | nil =>
      simp only [chunkAux, List.length_nil]
      exact (Nat.div_eq_of_lt (by omega)).symm
    | cons x xs => simp at hl
  | succ fuel ih =>
    intro l hl
    cases l with
    | nil =>
      simp only [chunkAux, List.length_nil]
      exact (Nat.div_eq_of_lt (by omega)).symm
    | cons x xs =>
      have hl2 : xs.length + 1 ≤ fuel + 1 := by simpa using hl
      simp only [chunkAux, List.length_cons]
      rw [ih ((x :: xs).drop n) (by simp [List.length_drop]; omega)]
      rw [List.length_drop, List.length_cons]
      exact (ceil_div_step hn (by omega)).symm

theorem chunkAux_mem_length {α : Type} {n : Nat} :
    ∀ (fuel : Nat) (l : List α), ∀ g ∈ chunkAux n fuel l, g.length ≤ n := by
  intro fuel
  induction fuel with
  | zero =>
    intro l g hg
    cases l with
    | nil => simp [chunkAux] at hg
    | cons x xs => simp [chunkAux] at hg
  | succ fuel ih =>
    intro l g hg
    cases l with
    | nil => simp [chunkAux] at hg
    | cons x xs =>
      simp only [chunkAux, List.mem_cons] at hg
      rcases hg with hg | hg
      · subst hg; simp [List.length_take]
      · exact ih _ g hg

theorem chunkList_flatten {α : Type} {n : Nat} (hn : 0 < n) (l : List α) :
    (chunkList n l).flatten = l := by
  unfold chunkList
  rw [if_neg (by omega)]
  exact chunkAux_flatten hn l.length l (Nat.le_refl _)

theorem chunkList_length {α : Type} {n : Nat} (hn : 0 < n) (l : List α) :
    (chunkList n l).length = (l.length + n - 1) / n := by
  unfold chunkList
  rw [if_neg (by omega)]
  exact chunkAux_length hn l.length l (Nat.le_refl _)

theorem chunkList_mem_length {α : Type} {n : Nat} (l : List α) :
    ∀ g ∈ chunkList n l, g.length ≤ n := by
  unfold chunkList
  intro g hg
  by_cases h : n = 0
  · rw [if_pos h] at hg; simp at hg
  · rw [if_neg h] at hg
    exact chunkAux_mem_length l.length l g hg

theorem chunkList_mem_subset {α : Type} {n : Nat} (hn : 0 < n) (l : List α) :
    ∀ g ∈ chunkList n l, ∀ x ∈ g, x ∈ l := by
  intro g hg x hx
  have : x ∈ (chunkList n l).flatten := List.mem_flatten.mpr ⟨g, hg, hx⟩
  rwa [chunkList_flatten hn] at this

theorem stripTemplateText_append (tmpl w : String) :
    stripTemplateText tmpl (tmpl ++ "\n" ++ w) = w := by
  unfold stripTemplateText
  have hdata : (tmpl ++ "\n" ++ w).data = (tmpl.data ++ ['\n']) ++ w.data := by
    simp [String.data_append]
  rw [hdata, List.drop_left' (by simp)]

theorem processRow_rowNum (complete : List ChatMessage → ChatResponse)
    (n : Nat) (h : ChatHistory) (r : Nat × ChatResponse × ChatHistory) (c p : Nat)
    (hr : processRow complete n h = .ok (r, c, p)) : r.1 = n := by
  unfold processRow at hr
  by_cases he : h.messages.isEmpty
  · rw [if_pos he] at hr
    cases hr
    rfl
  · rw [if_neg he] at hr
    cases hcall : (chat complete h.messages [] none).result with
    | error e => rw [hcall] at hr; cases hr
    | ok resp => rw [hcall] at hr; cases hr; rfl

theorem collectRows_ok (complete : List ChatMessage → ChatResponse) :
    ∀ (l : List (Nat × ChatHistory)) (out : List (Nat × ChatResponse × ChatHistory)),
      collectRows complete l = .ok out →
      out.length = l.length ∧
      ∀ (i : Nat) (q : Nat × ChatHistory), l[i]? = some q →
        ∃ r c prog, processRow complete q.1 q.2 = .ok (r, c, prog) ∧ out[i]? = some r := by
  intro l
  induction l with
  | nil =>
    intro out h
    simp only [collectRows] at h
    cases h
    exact ⟨rfl, by intro i q hq; simp at hq⟩
  | cons x xs ih =>
    intro out h
    simp only [collectRows] at h
    cases hx : processRow complete x.1 x.2 with
    | error e => rw [hx] at h; cases h
    | ok r =>
      rw [hx] at h
      cases hrec : collectRows complete xs with
      | error e => rw [hrec] at h; cases h
      | ok rs =>
        rw [hrec] at h
        cases h
        obtain ⟨hlen, hcorr⟩ := ih rs hrec
        constructor
        · simp [hlen]
        · intro i q hq
          cases i with
          | zero =>
            simp only [List.getElem?_cons_zero, Option.some_inj] at hq
            subst hq
            exact ⟨r.1, r.2.1, r.2.2, by simpa using hx, by simp⟩
          | succ j =>
            simp only [List.getElem?_cons_succ] at hq
            obtain ⟨r', c', p', h1, h2⟩ := hcorr j q hq
            exact ⟨r', c', p', h1, by simpa using h2⟩

theorem batchRowsExc_ok (complete : List ChatMessage → ChatResponse)
    (histories : List ChatHistory) (out : List (Nat × ChatResponse × ChatHistory))
    (h : batchRowsExc complete histories = .ok out) :
    out.length = histories.length ∧
    ∀ (i : Nat) (hist : ChatHistory), histories[i]? = some hist →
      ∃ r c prog, processRow complete i hist = .ok (r, c, prog) ∧ out[i]? = some r := by
  obtain ⟨hlen, hcorr⟩ := collectRows_ok complete histories.enum out h
  refine ⟨by simpa using hlen, ?_⟩
  intro i hist hi
  have henum : histories.enum[i]? = some (i, hist) := by
    rw [List.getElem?_enum, hi]
    rfl
  exact hcorr i (i, hist) henum

theorem batchRowsExc_fst (complete : List ChatMessage → ChatResponse)
    (histories : List ChatHistory) (out : List (Nat × ChatResponse × ChatHistory))
    (h : batchRowsExc complete histories = .ok out) :
    out.map Prod.fst = List.range histories.length := by
  obtain ⟨hlen, hcorr⟩ := batchRowsExc_ok complete histories out h
  apply List.ext_getElem?
  intro i
  rcases Nat.lt_or_ge i histories.length with hi | hi
  · obtain ⟨hist, hhist⟩ : ∃ hist, histories[i]? = some hist := by
      rw [List.getElem?_eq_getElem hi]
      exact ⟨_, rfl⟩
    obtain ⟨r, c, prog, hrow, hout⟩ := hcorr i hist hhist
    have hr1 : r.1 = i := processRow_rowNum complete i hist r c prog hrow
    rw [List.getElem?_map, hout, List.getElem?_range hi]
    simp [hr1]
  · rw [List.getElem?_eq_none (by simpa [hlen] using hi),
      List.getElem?_eq_none (by simpa using hi)]

theorem sorted_rowLt_of_nodup_keys (l : List (Nat × ChatResponse × ChatHistory))
    (hs : l.Sorted rowLe) (hnd : (l.map Prod.fst).Nodup) : l.Sorted rowLt := by
  have hnd' : l.Pairwise (fun a b => a.1 ≠ b.1) :=
    List.Pairwise.of_map Prod.fst (fun a b hab => hab) hnd
  have hs' : l.Pairwise rowLe := hs
  exact (List.Pairwise.and hs' hnd').imp (fun hab => Nat.lt_of_le_of_ne hab.1 hab.2)

theorem sorted_rowLt_of_range_keys (l : List (Nat × ChatResponse × ChatHistory))
    (h : l.map Prod.fst = List.range l.length) : l.Sorted rowLt := by
  have hpw : (l.map Prod.fst).Pairwise (· < ·) := by
    rw [h]
    exact List.pairwise_lt_range _
  exact List.Pairwise.of_map Prod.fst (fun a b hab => hab) hpw

theorem list_isEmpty_false_of_ne_nil {α : Type} {l : List α} (h : l ≠ []) :
    l.isEmpty = false := by
  cases l with
  | nil => exact absurd rfl h
  | cons x xs => rfl

/-! ### Claim theorems -/

/-- C9: a History with zero messages processed as a Batch Engine row yields a
Response with empty output and zero token counts, makes no backend call
(call count 0), and updates the progress callback exactly once — the same
single progress update that every successfully processed non-empty row
receives. -/
theorem c9_empty_row_short_circuit (complete : List ChatMessage → ChatResponse)
    (n : Nat) (h : ChatHistory) (hempty : h.messages = []) :
    processRow complete n h = .ok ((n, emptyResponse, h), 0, 1) ∧
    ∀ (n' : Nat) (h' : ChatHistory) (res : (Nat × ChatResponse × ChatHistory) × Nat × Nat),
      processRow complete n' h' = .ok res → res.2.2 = 1 := by
  constructor
  · unfold processRow
    rw [if_pos (by simp [hempty])]
  · intro n' h' res hres
    unfold processRow at hres
    by_cases he : h'.messages.isEmpty
    · rw [if_pos he] at hres
      cases hres
      rfl
    · rw [if_neg he] at hres
      cases hcall : (chat complete h'.messages [] none).result with
      | error e => rw [hcall] at hres; cases hres
      | ok resp => rw [hcall] at hres; cases hres; rfl

/-- Witness for C9 at a concrete empty-history row. -/
theorem c9_empty_row_short_circuit_witness :
    processRow (constBackend "R") 5 { model := "m", messages := [] } =
      .ok ((5, emptyResponse, { model := "m", messages := [] }), 0, 1) :=
  (c9_empty_row_short_circuit (constBackend "R") 5 { model := "m", messages := [] } rfl).1

/-- C8: invoking `chat` with a request context whose `split_mode` is `split`
and whose `prompt_template_text` is empty raises the configuration error
(`ValueError` in `__preprocess_text_message__`) before any backend call: the
call log is empty, the history is unchanged and the caller's messages are
untouched. -/
theorem c8_missing_template_preflight (complete : List ChatMessage → ChatResponse)
    (history msgs : List ChatMessage) (rc : ChatRequestContext)
    (hmsgs : msgs ≠ []) (hmode : rc.split_mode = .modeSplit)
    (htmpl : rc.prompt_template_text = "") :
    chat complete history msgs (some rc) =
      { result := .error .missingPromptTemplate, calls := [],
        historyAfter := history, callerAfter := msgs } := by
  have hne : msgs.isEmpty = false := list_isEmpty_false_of_ne_nil hmsgs
  have hpre : preprocessTextMessage rc msgs = .error .missingPromptTemplate := by
    unfold preprocessTextMessage
    rw [if_neg (by rw [hmode]; intro hcontra; cases hcontra), if_pos htmpl]
  unfold chat chatWithRequestContext
  rw [hne]
  simp only [Bool.false_eq_true, if_false, hpre]
  simp [hne]

/-- Witness for C8 at a concrete input. -/
theorem c8_missing_template_preflight_witness :
    chat (constBackend "R") [] [helloMsg]
        (some { split_mode := .modeSplit, split_message_length := 3 }) =
      { result := .error .missingPromptTemplate, calls := [],
        historyAfter := [], callerAfter := [helloMsg] } :=
  c8_missing_template_preflight (constBackend "R") [] [helloMsg]
    { split_mode := .modeSplit, split_message_length := 3 }
    (by decide) rfl rfl

/-- C1 (code bug): with a request context whose `split_mode` is `none` and a
single user message, the orchestrator does NOT return the single backend
call's output verbatim.  The leftover sequential dispatch loop of
`__chat_with_request_context__` (source lines 473-480) re-issues every
preprocessed message after the task-based fan-out, so two backend calls are
made and the two (identical) responses are merged with positional labels.
This theorem evaluates the embedding at the failing input: a backend that
always answers `"R"` yields output `"[answer_part_1]\nR\n[answer_part_2]\nR"`
and a call count of 2, where the claim (and the evident design: one task per
preprocessed message, single-response passthrough in
`__postprocess_messages__`) demands output `"R"` and one call. -/
theorem c1_splitmode_none_duplicated_dispatch :
    (chat (constBackend "R") [] [helloMsg] (some ctxNone)).result =
      .ok { output := "[answer_part_1]\nR\n[answer_part_2]\nR" } ∧
    (chat (constBackend "R") [] [helloMsg] (some ctxNone)).calls.length = 2 :=
  ⟨by decide, by decide⟩

/-- C3 (code bug): with `split_mode = split_and_summarize` and preprocessing
yielding exactly 3 branch messages (text `"abcde"` with window length 2),
the total number of backend calls is 7, not 4: the leftover sequential
dispatch loop doubles the 3 branch calls to 6, and one summary call is
added.  The summary call's outgoing message does begin with
`summarize_prompt_text` (`"S"`), as the claim states: its text is the
summarize prompt followed by the six branch outputs. -/
theorem c3_summarize_total_calls :
    (chat (constBackend "R") [] [abcdeMsg] (some ctxSummarize3)).calls.length = 7 ∧
    (chat (constBackend "R") [] [abcdeMsg] (some ctxSummarize3)).calls.getLast? =
      some [ChatMessage.mk user_role_name
        [create_text_content "S\nR\nR\nR\nR\nR\nR\n"]] ∧
    ctxSummarize3.summarize_prompt_text.data.isPrefixOf ("S\nR\nR\nR\nR\nR\nR\n").data = true :=
  ⟨by decide, by decide, by decide⟩

/-- C7 counterexample: a single fan-out response is NOT returned unchanged
for every split mode.  With `split_mode = split_and_summarize` and the single
response `"A"`, `__postprocess_messages__` issues the summarization call and
returns its answer (`"SUMMARY"` from the test double) instead of `"A"`. -/
theorem c7_single_response_counterexample :
    (postprocessMessages (constBackend "SUMMARY") [{ output := "A" }] ctxSummarizeOnly).1 ≠
      .ok { output := "A" } := by decide

/-- C7 (amended): when `split_mode ≠ split_and_summarize`, a single response
is returned unchanged, and otherwise (length ≠ 1) the branch outputs are
merged with 1-indexed positional labels `[answer_part_i]`, newline-separated
and stripped; in `split_and_summarize` mode even a single response goes
through the summarization call. -/
theorem c7_merge_behavior (complete : List ChatMessage → ChatResponse)
    (responses : List ChatResponse) (rc : ChatRequestContext)
    (hmode : rc.split_mode ≠ .modeSplitAndSummarize) :
    (∀ r, responses = [r] → postprocessMessages complete responses rc = (.ok r, [])) ∧
    (responses.length ≠ 1 →
      postprocessMessages complete responses rc =
        (.ok { output := pyStrip (labelConcat responses) }, [])) := by
  constructor
  · intro r hr
    subst hr
    unfold postprocessMessages
    rw [if_pos hmode]
  · intro hlen
    unfold postprocessMessages
    rw [if_pos hmode]
    match responses, hlen with
    | [], _ => rfl
    | [r], hlen => exact absurd rfl hlen
    | r :: r2 :: rs, _ => rfl

/-- Witness for C7: three branch outputs `"A"`, `"B"`, `"C"` under
`split_mode = split` merge to the labeled, newline-separated, stripped
string. -/
theorem c7_merge_behavior_witness :
    postprocessMessages (constBackend "X")
        [{ output := "A" }, { output := "B" }, { output := "C" }] ctxSplitLabel =
      (.ok { output := "[answer_part_1]\nA\n[answer_part_2]\nB\n[answer_part_3]\nC" }, []) := by
  have h := (c7_merge_behavior (constBackend "X")
    [{ output := "A" }, { output := "B" }, { output := "C" }] ctxSplitLabel (by decide)).2
    (by decide)
  rw [h]
  decide

theorem preprocessTextMessage_passthrough (rc : ChatRequestContext) (msgs : List ChatMessage)
    (htmpl : rc.prompt_template_text ≠ "")
    (hcond : rc.split_mode = .modeNone ∨ rc.split_message_length ≤ 0 ∨
      textContentsOf msgs = []) :
    preprocessTextMessage rc msgs =
      .ok (insertPromptTemplateList rc msgs, insertPromptTemplateList rc msgs) := by
  unfold preprocessTextMessage
  by_cases h1 : rc.split_mode = .modeNone
  · rw [if_pos h1]
  · rw [if_neg h1, if_neg htmpl]
    by_cases h2 : rc.split_message_length ≤ 0
    · rw [if_pos h2]
    · rw [if_neg h2]
      have h3 : textContentsOf msgs = [] := by
        rcases hcond with hc | hc | hc
        · exact absurd hc h1
        · exact absurd hc h2
        · exact hc
      rw [if_pos h3]

theorem chat_ctx_unfold (complete : List ChatMessage → ChatResponse)
    (history msgs : List ChatMessage) (rc : ChatRequestContext)
    (pre ins : List ChatMessage) (hmsgs : msgs ≠ [])
    (hpre : preprocessTextMessage rc msgs = .ok (pre, ins)) :
    chat complete history msgs (some rc) =
      match postprocessMessages complete
          ((preprocessImageUrls rc pre).map (fun m => complete (history ++ [m])) ++
            (preprocessImageUrls rc pre).map (fun m => complete (history ++ [m]))) rc with
      | (.error e, log2) =>
        { result := .error e,
          calls := (preprocessImageUrls rc pre).map (fun m => history ++ [m]) ++
            (preprocessImageUrls rc pre).map (fun m => history ++ [m]) ++ log2,
          historyAfter := history, callerAfter := ins }
      | (.ok resp, log2) =>
        { result := .ok resp,
          calls := (preprocessImageUrls rc pre).map (fun m => history ++ [m]) ++
            (preprocessImageUrls rc pre).map (fun m => history ++ [m]) ++ log2,
          historyAfter := history ++ preprocessImageUrls rc pre ++
            [{ role := assistant_role_name, content := [create_text_content resp.output] }],
          callerAfter := ins } := by
  have hne : msgs.isEmpty = false := list_isEmpty_false_of_ne_nil hmsgs
  unfold chat chatWithRequestContext
  rw [hne]
  simp only [Bool.false_eq_true, if_false, hpre, hne]

theorem chat_callerAfter_eq (complete : List ChatMessage → ChatResponse)
    (history msgs : List ChatMessage) (rc : ChatRequestContext)
    (pre ins : List ChatMessage) (hmsgs : msgs ≠ [])
    (hpre : preprocessTextMessage rc msgs = .ok (pre, ins)) :
    (chat complete history msgs (some rc)).callerAfter = ins := by
  rw [chat_ctx_unfold complete history msgs rc pre ins hmsgs hpre]
  rcases hp : postprocessMessages complete
      ((preprocessImageUrls rc pre).map (fun m => complete (history ++ [m])) ++
        (preprocessImageUrls rc pre).map (fun m => complete (history ++ [m]))) rc with ⟨res, log2⟩
  cases res <;> simp

/-- C10: whenever a request context with non-empty `prompt_template_text` is
supplied and the text-splitting re-chunking does not fire (`split_mode =
none`, or `split_message_length ≤ 0`, or no text blocks exist), the template
text block is inserted at position 0 of the caller's own input message
objects (observable as `callerAfter`, the post-call state of the caller's
message objects); consequently a second `chat` invocation on the same
(now mutated) message list — under the conditions stable across insertion —
inserts the template a second time. -/
theorem c10_template_insertion_mutates_input (complete : List ChatMessage → ChatResponse)
    (history msgs : List ChatMessage) (rc : ChatRequestContext)
    (htmpl : rc.prompt_template_text ≠ "") (hmsgs : msgs ≠ [])
    (hcond : rc.split_mode = .modeNone ∨ rc.split_message_length ≤ 0 ∨
      textContentsOf msgs = []) :
    (chat complete history msgs (some rc)).callerAfter =
      msgs.map (fun m =>
        { m with content := create_text_content rc.prompt_template_text :: m.content }) ∧
    ((rc.split_mode = .modeNone ∨ rc.split_message_length ≤ 0) →
      (chat complete history
          ((chat complete history msgs (some rc)).callerAfter) (some rc)).callerAfter =
        msgs.map (fun m =>
          { m with content := create_text_content rc.prompt_template_text ::
            create_text_content rc.prompt_template_text :: m.content })) := by
  have hins : ∀ l : List ChatMessage, insertPromptTemplateList rc l =
      l.map (fun m =>
        { m with content := create_text_content rc.prompt_template_text :: m.content }) := by
    intro l
    simp [insertPromptTemplateList, insertPromptTemplateMsg, htmpl]
  have h1 : (chat complete history msgs (some rc)).callerAfter =
      insertPromptTemplateList rc msgs :=
    chat_callerAfter_eq complete history msgs rc _ _ hmsgs
      (preprocessTextMessage_passthrough rc msgs htmpl hcond)
  constructor
  · rw [h1, hins]
  · intro hc2
    have hcond2 : rc.split_mode = .modeNone ∨ rc.split_message_length ≤ 0 ∨
        textContentsOf (insertPromptTemplateList rc msgs) = [] := by
      rcases hc2 with h | h
      · exact Or.inl h
      · exact Or.inr (Or.inl h)
    have hmsgs2 : insertPromptTemplateList rc msgs ≠ [] := by
      unfold insertPromptTemplateList
      cases msgs with
      | nil => exact absurd rfl hmsgs
      | cons x xs => simp
    have h2 : (chat complete history (insertPromptTemplateList rc msgs) (some rc)).callerAfter =
        insertPromptTemplateList rc (insertPromptTemplateList rc msgs) :=
      chat_callerAfter_eq complete history (insertPromptTemplateList rc msgs) rc _ _ hmsgs2
        (preprocessTextMessage_passthrough rc (insertPromptTemplateList rc msgs) htmpl hcond2)
    rw [h1, h2, hins, hins, List.map_map]
    rfl

/-- Witness for C10 at a concrete input: one invocation inserts `"T"` at the
front of the caller's message; a second invocation on the mutated message
inserts it again. -/
theorem c10_template_insertion_mutates_input_witness :
    (chat (constBackend "R") [] [helloMsg] (some ctxNoneT)).callerAfter =
      [ChatMessage.mk "user" [ChatContent.text "T", ChatContent.text "hello"]] ∧
    (chat (constBackend "R") []
        ((chat (constBackend "R") [] [helloMsg] (some ctxNoneT)).callerAfter)
        (some ctxNoneT)).callerAfter =
      [ChatMessage.mk "user"
        [ChatContent.text "T", ChatContent.text "T", ChatContent.text "hello"]] := by
  have h := c10_template_insertion_mutates_input (constBackend "R") [] [helloMsg] ctxNoneT
    (by decide) (by decide) (Or.inl rfl)
  refine ⟨?_, ?_⟩
  · rw [h.1]; decide
  · rw [h.2 (Or.inl rfl)]; decide

theorem chat_ctx_ok_historyAfter (complete : List ChatMessage → ChatResponse)
    (history msgs : List ChatMessage) (rc : ChatRequestContext)
    (pre ins : List ChatMessage) (resp : ChatResponse) (hmsgs : msgs ≠ [])
    (hpre : preprocessTextMessage rc msgs = .ok (pre, ins))
    (hok : (chat complete history msgs (some rc)).result = .ok resp) :
    (chat complete history msgs (some rc)).historyAfter =
      history ++ preprocessImageUrls rc pre ++
        [{ role := assistant_role_name, content := [create_text_content resp.output] }] := by
  rw [chat_ctx_unfold complete history msgs rc pre ins hmsgs hpre] at hok ⊢
  rcases hp : postprocessMessages complete
      ((preprocessImageUrls rc pre).map (fun m => complete (history ++ [m])) ++
        (preprocessImageUrls rc pre).map (fun m => complete (history ++ [m]))) rc with ⟨res, log2⟩
  cases res with
  | error e =>
    rw [hp] at hok
    simp at hok
  | ok r =>
    rw [hp] at hok
    dsimp only at hok ⊢
    injection hok with hr
    subst hr
    rfl

/-- C6 counterexample: the orchestrator does NOT append the pre-split
resolved message to the history.  With `split_mode = split`, window length 1,
template `"T"` and the single user message `"ab"`, preprocessing yields two
window messages; the run succeeds (the duplicated dispatch then produces four
labeled parts) and the final history holds 3 messages (the two windows plus
the assistant answer), so it cannot have the claimed shape
`history ++ [original message] ++ [assistant message]` of length 2. -/
theorem c6_presplit_append_counterexample :
    (chat (constBackend "R") [] [abMsg] (some ctxSplit1)).result =
      .ok { output :=
        "[answer_part_1]\nR\n[answer_part_2]\nR\n[answer_part_3]\nR\n[answer_part_4]\nR" } ∧
    (chat (constBackend "R") [] [abMsg] (some ctxSplit1)).historyAfter.length = 3 ∧
    ∀ a : ChatMessage,
      (chat (constBackend "R") [] [abMsg] (some ctxSplit1)).historyAfter ≠ [abMsg, a] := by
  refine ⟨by decide, by decide, ?_⟩
  intro a hcon
  have h3 : (chat (constBackend "R") [] [abMsg] (some ctxSplit1)).historyAfter.length = 3 :=
    by decide
  rw [hcon] at h3
  simp at h3

/-- C6 (amended): for every successful chat invocation with a non-empty
message list, the caller's history after the call is its prior message
sequence unchanged, followed by the *post-split preprocessed* messages of the
turn (which equal the resolved input messages when no request context is
supplied) and then exactly one synthesized assistant message carrying the
final merged text; nothing is deleted or reordered. -/
theorem c6_history_append_only (complete : List ChatMessage → ChatResponse)
    (history msgs : List ChatMessage) (rc : Option ChatRequestContext) (resp : ChatResponse)
    (hmsgs : msgs ≠ []) (hok : (chat complete history msgs rc).result = .ok resp) :
    ∃ mid, (chat complete history msgs rc).historyAfter =
        history ++ mid ++
          [{ role := assistant_role_name, content := [create_text_content resp.output] }] ∧
      (rc = none → mid = msgs) ∧
      (∀ c, rc = some c →
        ∃ pr, preprocessTextMessage c msgs = .ok pr ∧ mid = preprocessImageUrls c pr.1) := by
  have hne : msgs.isEmpty = false := list_isEmpty_false_of_ne_nil hmsgs
  cases rc with
  | none =>
    refine ⟨msgs, ?_, fun _ => rfl, fun c hc => Option.noConfusion hc⟩
    unfold chat normalChat at hok ⊢
    simp only [hne, Bool.false_eq_true, if_false] at hok ⊢
    simp only [Except.ok.injEq] at hok
    rw [hok]
  | some c =>
    cases hpre : preprocessTextMessage c msgs with
    | error e =>
      exfalso
      unfold chat chatWithRequestContext at hok
      simp only [hne, Bool.false_eq_true, if_false, hpre] at hok
      simp at hok
    | ok pr =>
      obtain ⟨pre, ins⟩ := pr
      refine ⟨preprocessImageUrls c pre, ?_, ?_, ?_⟩
      · exact chat_ctx_ok_historyAfter complete history msgs c pre ins resp hmsgs hpre hok
      · intro hnone
        exact Option.noConfusion hnone
      · intro c' hc'
        cases hc'
        exact ⟨(pre, ins), hpre, rfl⟩

/-- Witness for C6 on a concrete no-context invocation. -/
theorem c6_history_append_only_witness :
    (chat (constBackend "R") [] [helloMsg] none).historyAfter =
      [helloMsg, ChatMessage.mk assistant_role_name [create_text_content "R"]] ∧
    (chat (constBackend "R") [] [helloMsg] none).result = .ok { output := "R" } := by
  have h := c6_history_append_only (constBackend "R") [] [helloMsg] none
    { output := "R" } (by decide) (by decide)
  obtain ⟨mid, hm, hnone, _⟩ := h
  rw [hnone rfl] at hm
  exact ⟨by simpa using hm, by decide⟩

/-- C4 counterexample: when the input has no text blocks, the claimed count
`ceil(T / L)` (with `T = 0`) is 0, but `__preprocess_text_message__` passes
the (templated) input messages through, producing 1 message for a
single-message input carrying only an image block. -/
theorem c4_ceil_count_counterexample :
    (preprocessTextMessage ctxSplit1 [imageOnlyMsg]).map (fun p => p.1.length) ≠
      .ok (((combinedTextOf [imageOnlyMsg]).length + ctxSplit1.split_message_length.toNat - 1) /
        ctxSplit1.split_message_length.toNat) := by decide

/-- C4 (amended): when `split_mode ≠ none`, `split_message_length = L > 0`,
the template is non-empty and the input contains *at least one text block*,
text preprocessing produces exactly `ceil(T / L)` messages for `T` the length
of the newline-joined concatenated text; removing the inserted template text
(template plus newline separator) from each window message's leading text
block and concatenating the windows in order reconstructs the concatenated
text exactly, and every non-text block of the input follows the text block of
every resulting window message, in original relative order. -/
theorem c4_text_splitting_exactness (rc : ChatRequestContext) (msgs : List ChatMessage)
    (hmode : rc.split_mode ≠ .modeNone) (hL : 0 < rc.split_message_length)
    (htmpl : rc.prompt_template_text ≠ "") (htext : textContentsOf msgs ≠ []) :
    ∃ out, preprocessTextMessage rc msgs = .ok (out, msgs) ∧
      out.length = ((combinedTextOf msgs).length + rc.split_message_length.toNat - 1) /
        rc.split_message_length.toNat ∧
      concatAll (out.map (fun m => stripTemplateText rc.prompt_template_text (headTextOf m))) =
        combinedTextOf msgs ∧
      ∀ m ∈ out, m.content.tail = nonTextContentsOf msgs := by
  have hLnat : 0 < rc.split_message_length.toNat := by omega
  have hnotle : ¬ rc.split_message_length ≤ 0 := by omega
  refine ⟨((chunkList rc.split_message_length.toNat (combinedTextOf msgs).data).map
      (fun cs => String.mk cs)).map (fun w =>
      { role := user_role_name,
        content := create_text_content (rc.prompt_template_text ++ "\n" ++ w) ::
          nonTextContentsOf msgs }), ?_, ?_, ?_, ?_⟩
  · unfold preprocessTextMessage
    rw [if_neg hmode, if_neg htmpl, if_neg hnotle, if_neg htext]
  · rw [List.length_map, List.length_map, chunkList_length hLnat]
    rfl
  · rw [List.map_map, List.map_map]
    rw [List.map_congr_left (fun cs _ => by
      show stripTemplateText rc.prompt_template_text
          (headTextOf
            { role := user_role_name,
              content := create_text_content
                  (rc.prompt_template_text ++ "\n" ++ String.mk cs) ::
                nonTextContentsOf msgs }) = String.mk cs
      rw [show headTextOf
          { role := user_role_name,
            content := create_text_content
                (rc.prompt_template_text ++ "\n" ++ String.mk cs) ::
              nonTextContentsOf msgs } =
          rc.prompt_template_text ++ "\n" ++ String.mk cs from rfl]
      exact stripTemplateText_append rc.prompt_template_text (String.mk cs))]
    unfold concatAll
    rw [List.map_map]
    rw [show (String.data ∘ fun cs : List Char => String.mk cs) = id from rfl, List.map_id,
      chunkList_flatten hLnat, string_mk_data]
  · intro m hm
    simp only [List.mem_map] at hm
    obtain ⟨w, hw, rfl⟩ := hm
    rfl

/-- Witness for C4 at a concrete input: text `"abcde"` with `L = 2` yields
`ceil(5 / 2) = 3` window messages. -/
theorem c4_text_splitting_exactness_witness :
    (preprocessTextMessage ctxSplitLen2 [abcdeMsg]).map (fun p => p.1.length) =
      .ok (((combinedTextOf [abcdeMsg]).length + ctxSplitLen2.split_message_length.toNat - 1) /
        ctxSplitLen2.split_message_length.toNat) ∧
    ((combinedTextOf [abcdeMsg]).length + ctxSplitLen2.split_message_length.toNat - 1) /
        ctxSplitLen2.split_message_length.toNat = 3 := by
  obtain ⟨out, h1, h2, h3, h4⟩ := c4_text_splitting_exactness ctxSplitLen2 [abcdeMsg]
    (by decide) (by decide) (by decide) (by decide)
  constructor
  · rw [h1]
    simp only [Except.map]
    rw [h2]
  · decide

theorem filter_image_of_filter_text (l : List ChatContent) :
    (l.filter (fun c => c.isTextContent)).filter (fun c => c.isImageContent) = [] := by
  rw [List.filter_eq_nil_iff]
  intro a ha
  have hat := (List.mem_filter.mp ha).2
  cases a <;> simp_all [ChatContent.isTextContent, ChatContent.isImageContent]

theorem filter_text_idem (l : List ChatContent) :
    (l.filter (fun c => c.isTextContent)).filter (fun c => c.isTextContent) =
      l.filter (fun c => c.isTextContent) := by
  induction l with
  | nil => rfl
  | cons c cs ih => cases hc : c.isTextContent <;> simp [List.filter_cons, hc, ih]

theorem isText_false_of_isImage (c : ChatContent) (h : c.isImageContent = true) :
    c.isTextContent = false := by
  cases c <;> simp_all [ChatContent.isImageContent, ChatContent.isTextContent]

/-- C5: with `split_mode ≠ none` and `max_images_per_request = M > 0`, a
message with zero image blocks passes through image batching unchanged, and a
message with K > 0 image blocks is split into exactly `ceil(K / M)` messages,
each carrying all of the message's text blocks in full plus at most M images,
with the concatenation of the per-branch image groups (in order) equal to the
original image sequence. -/
theorem c5_image_batching_exactness (rc : ChatRequestContext) (m : ChatMessage)
    (hmode : rc.split_mode ≠ .modeNone) (hM : 0 < rc.max_images_per_request) :
    (m.content.filter (fun c => c.isImageContent) = [] →
      preprocessImageUrls rc [m] = [m]) ∧
    (m.content.filter (fun c => c.isImageContent) ≠ [] →
      preprocessImageUrls rc [m] =
        (chunkList rc.max_images_per_request.toNat
            (m.content.filter (fun c => c.isImageContent))).map
          (fun g =>
            { role := m.role,
              content := m.content.filter (fun c => c.isTextContent) ++ g }) ∧
      (preprocessImageUrls rc [m]).length =
        ((m.content.filter (fun c => c.isImageContent)).length +
          rc.max_images_per_request.toNat - 1) / rc.max_images_per_request.toNat ∧
      (∀ mm ∈ preprocessImageUrls rc [m],
        (mm.content.filter (fun c => c.isImageContent)).length ≤
          rc.max_images_per_request.toNat ∧
        mm.content.filter (fun c => c.isTextContent) =
          m.content.filter (fun c => c.isTextContent)) ∧
      ((preprocessImageUrls rc [m]).map
          (fun mm => mm.content.filter (fun c => c.isImageContent))).flatten =
        m.content.filter (fun c => c.isImageContent)) := by
  have hMnat : 0 < rc.max_images_per_request.toNat := by omega
  have hnotle : ¬ rc.max_images_per_request ≤ 0 := by omega
  have hunf : preprocessImageUrls rc [m] =
      preprocessImageMessage rc.max_images_per_request.toNat m := by
    unfold preprocessImageUrls
    rw [if_neg hmode, if_neg hnotle]
    simp
  constructor
  · intro hempty
    rw [hunf]
    unfold preprocessImageMessage
    rw [if_pos hempty]
  · intro hne
    have hform : preprocessImageUrls rc [m] =
        (chunkList rc.max_images_per_request.toNat
            (m.content.filter (fun c => c.isImageContent))).map
          (fun g =>
            { role := m.role,
              content := m.content.filter (fun c => c.isTextContent) ++ g }) := by
      rw [hunf]
      unfold preprocessImageMessage
      rw [if_neg hne]
    have hgroup : ∀ g ∈ chunkList rc.max_images_per_request.toNat
        (m.content.filter (fun c => c.isImageContent)),
        (m.content.filter (fun c => c.isTextContent) ++ g).filter
            (fun c => c.isImageContent) = g ∧
        (m.content.filter (fun c => c.isTextContent) ++ g).filter
            (fun c => c.isTextContent) = m.content.filter (fun c => c.isTextContent) := by
      intro g hg
      have hgimg : ∀ x ∈ g, x.isImageContent = true := by
        intro x hx
        have hmem := chunkList_mem_subset hMnat
          (m.content.filter (fun c => c.isImageContent)) g hg x hx
        exact (List.mem_filter.mp hmem).2
      constructor
      · rw [List.filter_append, filter_image_of_filter_text, List.nil_append,
          List.filter_eq_self.mpr hgimg]
      · have hgt : g.filter (fun c => c.isTextContent) = [] :=
          List.filter_eq_nil_iff.mpr (fun x hx => by
            rw [isText_false_of_isImage x (hgimg x hx)]
            exact Bool.false_ne_true)
        rw [List.filter_append, filter_text_idem, hgt, List.append_nil]
    refine ⟨hform, ?_, ?_, ?_⟩
    · rw [hform, List.length_map, chunkList_length hMnat]
    · intro mm hmm
      rw [hform] at hmm
      simp only [List.mem_map] at hmm
      obtain ⟨g, hg, rfl⟩ := hmm
      obtain ⟨hgi, hgt⟩ := hgroup g hg
      exact ⟨by rw [hgi]; exact chunkList_mem_length _ g hg, hgt⟩
    · rw [hform, List.map_map]
      rw [List.map_congr_left (fun g hg =>
        show ((fun mm : ChatMessage => mm.content.filter (fun c => c.isImageContent)) ∘
            (fun g =>
              { role := m.role,
                content := m.content.filter (fun c => c.isTextContent) ++ g })) g = g
        from (hgroup g hg).1)]
      simp [chunkList_flatten hMnat]

/-- Witness for C5 at a concrete input: 3 images with M = 2 yield 2 branch
messages. -/
theorem c5_image_batching_exactness_witness :
    preprocessImageUrls ctxImages2 [threeImageMsg] =
      [ChatMessage.mk "user" [ChatContent.text "t", ChatContent.image 1, ChatContent.image 2],
       ChatMessage.mk "user" [ChatContent.text "t", ChatContent.image 3]] ∧
    (preprocessImageUrls ctxImages2 [threeImageMsg]).length = 2 := by
  have h := (c5_image_batching_exactness ctxImages2 threeImageMsg (by decide) (by decide)).2
    (by decide)
  refine ⟨?_, ?_⟩
  · rw [h.1]
    decide
  · rw [h.2.1]
    decide

/-- C2: for every list of histories whose per-row processing succeeds with
tagged results `canonical` (tags assigned in submission order by
`enumerate`), and for every order `gathered` in which the gathered task
results may arrive (any permutation of `canonical`, modelling arbitrary
backend completion order), the sort-by-row-number step of `run_batch_chat`
returns exactly `canonical`: the i-th element of the returned list is the
result of processing the i-th input history. -/
theorem c2_batch_order_preserved (complete : List ChatMessage → ChatResponse)
    (histories : List ChatHistory)
    (canonical gathered : List (Nat × ChatResponse × ChatHistory))
    (hok : batchRowsExc complete histories = .ok canonical)
    (hperm : gathered.Perm canonical) :
    runBatchChatSort gathered = canonical ∧
    ∀ (i : Nat) (hist : ChatHistory), histories[i]? = some hist →
      ∃ r c prog, processRow complete i hist = .ok (r, c, prog) ∧
        (runBatchChatSort gathered)[i]? = some r := by
  have hfst : canonical.map Prod.fst = List.range histories.length :=
    batchRowsExc_fst complete histories canonical hok
  obtain ⟨hlen, hcorr⟩ := batchRowsExc_ok complete histories canonical hok
  have hfst2 : canonical.map Prod.fst = List.range canonical.length := by
    rw [hfst, hlen]
  have hsortedC : canonical.Sorted rowLt := sorted_rowLt_of_range_keys canonical hfst2
  have hp1 : (runBatchChatSort gathered).Perm gathered := List.perm_insertionSort rowLe gathered
  have hp : (runBatchChatSort gathered).Perm canonical := hp1.trans hperm
  have hndC : (canonical.map Prod.fst).Nodup := by
    rw [hfst2]
    exact List.nodup_range _
  have hndS : ((runBatchChatSort gathered).map Prod.fst).Nodup :=
    ((hp.map Prod.fst).symm).nodup hndC
  have hsortedLe : (runBatchChatSort gathered).Sorted rowLe :=
    List.sorted_insertionSort rowLe gathered
  have hsortedS : (runBatchChatSort gathered).Sorted rowLt :=
    sorted_rowLt_of_nodup_keys (runBatchChatSort gathered) hsortedLe hndS
  have heq : runBatchChatSort gathered = canonical :=
    List.eq_of_perm_of_sorted hp hsortedS hsortedC
  refine ⟨heq, ?_⟩
  intro i hist hi
  obtain ⟨r, c, prog, h1, hout⟩ := hcorr i hist hi
  exact ⟨r, c, prog, h1, by rw [heq]; exact hout⟩

/-- Witness for C2: a concrete 3-row batch whose gathered results arrive in
reversed order is sorted back to the canonical order. -/
theorem c2_batch_order_preserved_witness :
    batchRowsExc (constBackend "ok") [mkHist "a", mkHist "b", mkHist "c"] = .ok c2canonical ∧
    runBatchChatSort c2canonical.reverse = c2canonical := by
  have hok : batchRowsExc (constBackend "ok") [mkHist "a", mkHist "b", mkHist "c"] =
      .ok c2canonical := by decide
  exact ⟨hok, (c2_batch_order_preserved (constBackend "ok")
    [mkHist "a", mkHist "b", mkHist "c"] c2canonical c2canonical.reverse hok
    (List.reverse_perm c2canonical)).1⟩

end AiChatUtil
